import Mathlib

/-!
# Verification of the k6 cloud output (expv2) metrics pipeline

Shallow embedding of the `expv2` cloud-output package of k6:
the HDR histogram encoder (`histogram.go`), the sample aggregator and
the protobuf batch encoder (`output.go`), and the push client
(`metrics_client.go`).

Modelling conventions:
* Go `float64` values are modelled as `ℚ`.  Every operation the embedded
  code performs on them (comparison, `math.Ceil`, addition) is exact on
  the rationals for the ranges exercised here.
* Go `uint32` counters are modelled as `ℕ` with an explicit `% U32`
  at each increment, mirroring two's-complement wraparound.
* Go maps are modelled as association lists; iteration order of a map is
  the list order.  All properties proved below are insensitive to that
  order.
* `math.Floor(math.Log2(float64(n)))` for the integer arguments that the
  histogram feeds it (`1 ≤ n ≤ 2^24`, exactly representable in `float64`,
  with `Log2` more than accurate enough to floor correctly there) equals
  `Nat.log2 n`, which is how it is embedded.
-/

namespace K6

/-- Two's-complement modulus of Go's `uint32`. -/
def U32 : ℕ := 2 ^ 32

/-! ## Histogram encoder (`histogram.go`) -/

/-- `lowestTrackable`: the minimum value that the histogram tracks;
negative values are diverted to the underflow counter. -/
def lowestTrackable : ℚ := 0

/-- `highestTrackable = 1 << 30`: the maximum value tracked with
high accuracy; larger values are diverted to the overflow counter. -/
def highestTrackable : ℚ := 1073741824

/-- Go struct `histogram`: sparse bucket array, overflow counters,
first/last non-zero bucket markers and running min/max/sum/count. -/
structure Histogram where
  Buckets : List ℕ
  ExtraLowBucket : ℕ
  ExtraHighBucket : ℕ
  FirstNotZeroBucket : ℕ
  LastNotZeroBucket : ℕ
  Max : ℚ
  Min : ℚ
  Sum : ℚ
  Count : ℕ
  deriving DecidableEq, Repr

/-- The Go zero value of `histogram` (`histogram{}`). -/
def emptyHistogram : Histogram := ⟨[], 0, 0, 0, 0, 0, 0, 0, 0⟩

/-- The branch of `resolveBucketIndex` acting on the already upscaled
integer `upscaled = int32(math.Ceil(val))` (non-negative here, so carried
as `ℕ`; every caller passes `val ≤ 2^30`, so the `int32` conversion in Go
is exact).  `const k = 7`; `Nat.log2` embeds
`math.Floor(math.Log2 ...)` on these integer arguments. -/
def bucketIndexOfUpscaled (upscaled : ℕ) : ℕ :=
  if 256 ≤ upscaled then
    (Nat.log2 (upscaled >>> 7) <<< 7) + (upscaled >>> Nat.log2 (upscaled >>> 7))
  else
    upscaled

/-- Go `resolveBucketIndex`: relative index in the bucket series for
the provided value.  Negative values map to 0. -/
def resolveBucketIndex (val : ℚ) : ℕ :=
  if val < 0 then 0
  else bucketIndexOfUpscaled (Int.ceil val).toNat

/-- Increment (with `uint32` wraparound) the counter at the given index;
out-of-range indices leave the list unchanged (the Go code only ever
indexes in range, having just grown the slice). -/
def incrAt : List ℕ → ℕ → List ℕ
  | [], _ => []
  | c :: rest, 0 => ((c + 1) % U32) :: rest
  | c :: rest, n + 1 => c :: incrAt rest n

/-- Go `(*histogram).addToBucket`: update min/max/sum/count, divert
out-of-domain values to the overflow counters, otherwise grow the bucket
array with zero fill up to the resolved index if needed, increment that
bucket and maintain the first/last non-zero markers. -/
def addToBucket (h : Histogram) (v : ℚ) : Histogram :=
  let h :=
    if h.Count = 0 then { h with Max := v, Min := v }
    else
      let h := if v > h.Max then { h with Max := v } else h
      if v < h.Min then { h with Min := v } else h
  let h := { h with Count := (h.Count + 1) % U32, Sum := h.Sum + v }
  if v > highestTrackable then
    { h with ExtraHighBucket := (h.ExtraHighBucket + 1) % U32 }
  else if v < lowestTrackable then
    { h with ExtraLowBucket := (h.ExtraLowBucket + 1) % U32 }
  else
    let index := resolveBucketIndex v
    let blen := h.Buckets.length
    let h :=
      if blen = 0 then
        { h with FirstNotZeroBucket := index, LastNotZeroBucket := index }
      else
        let h :=
          if index < h.FirstNotZeroBucket then { h with FirstNotZeroBucket := index } else h
        if index > h.LastNotZeroBucket then { h with LastNotZeroBucket := index } else h
    let buckets :=
      if blen ≤ index then h.Buckets ++ List.replicate (index - blen + 1) 0 else h.Buckets
    { h with Buckets := incrAt buckets index }

/-- Go `(*histogram).trimzeros`: slice the bucket array to
`[FirstNotZeroBucket, LastNotZeroBucket]`; when both markers are zero the
whole array is dropped. -/
def trimzeros (h : Histogram) : Histogram :=
  if h.Count < 1 ∨ h.Buckets.length < 1 then h
  else if h.FirstNotZeroBucket = 0 ∧ h.LastNotZeroBucket = 0 then
    { h with Buckets := [] }
  else
    { h with
      Buckets :=
        (h.Buckets.drop h.FirstNotZeroBucket).take
          (h.LastNotZeroBucket + 1 - h.FirstNotZeroBucket) }

/-- Go `newHistogram`: fold all values into a fresh histogram, then trim. -/
def newHistogram (values : List ℚ) : Histogram :=
  if values.length < 1 then emptyHistogram
  else trimzeros (values.foldl addToBucket emptyHistogram)

example : resolveBucketIndex 50 = 50 := by decide
example : (newHistogram []).Count = 0 := by decide

/-! ## Sample aggregator and batch encoder (`output.go`) -/

/-- Go `metrics.MetricType` (the four variants used by the encoder). -/
inductive MetricType
  | Counter
  | Gauge
  | Rate
  | Trend
  deriving DecidableEq, Repr

/-- Go `metrics.Metric`: identity is name plus type (pointer identity in
Go; equality of this record models it). -/
structure Metric where
  name : String
  type : MetricType
  deriving DecidableEq, Repr

/-- Go `metrics.TimeSeries`: a metric together with its tag set (tags as
an ordered list of key/value pairs standing in for the atlas node). -/
structure TimeSeries where
  metric : Metric
  tags : List (String × String)
  deriving DecidableEq, Repr

/-- Go `metrics.Sample`: time series, timestamp (as `ℕ`), value. -/
structure Sample where
  ts : TimeSeries
  time : ℕ
  value : ℚ
  deriving DecidableEq, Repr

/-- Go `aggregatedSamples.Samples`: the per-metric map from `TimeSeries`
to the ordered list of samples, as an association list. -/
def AggregatedSamples := List (TimeSeries × List Sample)

instance : DecidableEq AggregatedSamples :=
  inferInstanceAs (DecidableEq (List (TimeSeries × List Sample)))

/-- Go `(*aggregatedSamples).AddSample`: append to the list for the
sample's time series, creating the entry on first occurrence. -/
def AddSample (m : AggregatedSamples) (s : Sample) : AggregatedSamples :=
  match m with
  | [] => [(s.ts, [s])]
  | (k, tss) :: rest =>
    if k = s.ts then (k, tss ++ [s]) :: rest else (k, tss) :: AddSample rest s

/-- Go `(*aggregatedSamples).Clean`: delete every key of the map. -/
def Clean (_m : AggregatedSamples) : AggregatedSamples := []

/-- Go `Output.activeSeries`: map from metric to its aggregated samples,
as an association list. -/
def ActiveSeries := List (Metric × AggregatedSamples)

instance : DecidableEq ActiveSeries :=
  inferInstanceAs (DecidableEq (List (Metric × AggregatedSamples)))

/-- Association-list lookup on `activeSeries` (Go map indexing). -/
def lookupMetric : ActiveSeries → Metric → Option AggregatedSamples
  | [], _ => none
  | (k, aggr) :: rest, m => if k = m then some aggr else lookupMetric rest m

/-- The body of `collectSamples`' inner loop: look up (or lazily create)
the per-metric aggregator keyed by the sample's metric, then delegate to
`AddSample`. -/
def addSampleToActive (active : ActiveSeries) (s : Sample) : ActiveSeries :=
  match active with
  | [] => [(s.ts.metric, AddSample [] s)]
  | (k, aggr) :: rest =>
    if k = s.ts.metric then (k, AddSample aggr s) :: rest
    else (k, aggr) :: addSampleToActive rest s

/-- Go `(*Output).collectSamples`: drain the buffered sample containers;
if none were buffered return `false`, otherwise add every sample of every
container to `activeSeries` and return `true`. -/
def collectSamples (active : ActiveSeries) (buffered : List (List Sample)) :
    ActiveSeries × Bool :=
  if buffered.length < 1 then (active, false)
  else
    (buffered.foldl (fun acc samples => samples.foldl addSampleToActive acc) active,
      true)

/-- Go `pbcloud.Label`. -/
structure Label where
  name : String
  value : String
  deriving DecidableEq, Repr

/-- Go `pbcloud.CounterValue`. -/
structure CounterValue where
  time : ℕ
  value : ℚ
  deriving DecidableEq, Repr

/-- Go `pbcloud.GaugeValue`. -/
structure GaugeValue where
  time : ℕ
  last : ℚ
  min : ℚ
  max : ℚ
  avg : ℚ
  deriving DecidableEq, Repr

/-- Go `pbcloud.RateValue`. -/
structure RateValue where
  time : ℕ
  nonzeroCount : ℕ
  totalCount : ℕ
  deriving DecidableEq, Repr

/-- The oneof `pbcloud.TimeSeries.Samples` wire payloads. -/
inductive PbSamples
  | counterSamples (values : List CounterValue)
  | gaugeSamples (values : List GaugeValue)
  | rateSamples (values : List RateValue)
  deriving DecidableEq, Repr

/-- Go `pbcloud.TimeSeries`: labels plus the type-tagged sample payload
(`none` models an unset oneof, which the Go switch leaves for the Trend
arm — dead code, since Trend series are skipped before the switch). -/
structure PbTimeSeries where
  labels : List Label
  samples : Option PbSamples
  deriving DecidableEq, Repr

/-- One iteration body of `MapAsProto`'s loop: labels, then the switch on
the metric type.  The `Trend` arm is the Go `case metrics.Trend:` that
contains only a TODO comment, leaving the payload unset. -/
def mapTimeSeries (refID : String) (ts : TimeSeries) (samples : List Sample) :
    PbTimeSeries :=
  let labels :=
    ⟨"__name__", ts.metric.name⟩ :: ⟨"test_run_id", refID⟩ ::
      ts.tags.map (fun kv => ⟨kv.1, kv.2⟩)
  let pbs : Option PbSamples :=
    match ts.metric.type with
    | .Counter =>
      some (.counterSamples (samples.map fun s => ⟨s.time, s.value⟩))
    | .Gauge =>
      some (.gaugeSamples (samples.map fun s => ⟨s.time, s.value, s.value, s.value, s.value⟩))
    | .Rate =>
      some (.rateSamples (samples.map fun s =>
        ⟨s.time, if s.value ≠ 0 then 1 else 0, 1⟩))
    | .Trend => none
  ⟨labels, pbs⟩

/-- The loop of `MapAsProto` over the per-series map: Trend series are
skipped (`continue`) with a "skip trend metrics" comment; every other
series is encoded by the type switch. -/
def mapAsProtoLoop (refID : String) : AggregatedSamples → List PbTimeSeries
  | [] => []
  | (ts, samples) :: rest =>
    if ts.metric.type = MetricType.Trend then mapAsProtoLoop refID rest
    else mapTimeSeries refID ts samples :: mapAsProtoLoop refID rest

/-- Go `(*aggregatedSamples).MapAsProto`. -/
def MapAsProto (asamples : AggregatedSamples) (refID : String) :
    List PbTimeSeries :=
  if asamples.length < 1 then [] else mapAsProtoLoop refID asamples

/-- Go `pbcloud.MetricType` wire enum. -/
inductive PbMetricType
  | COUNTER
  | GAUGE
  | RATE
  | TREND
  deriving DecidableEq, Repr

/-- The switch in `mapMetricProto` from the metric type to the wire tag. -/
def mapMetricType : MetricType → PbMetricType
  | .Counter => .COUNTER
  | .Gauge => .GAUGE
  | .Rate => .RATE
  | .Trend => .TREND

/-- Go `pbcloud.Metric`. -/
structure PbMetric where
  name : String
  type : PbMetricType
  timeSeries : List PbTimeSeries
  deriving DecidableEq, Repr

/-- Go `(*Output).mapMetricProto`. -/
def mapMetricProto (refID : String) (m : Metric) (asamples : AggregatedSamples) :
    PbMetric :=
  ⟨m.name, mapMetricType m.type, MapAsProto asamples refID⟩

/-- The `metricSet` accumulation loop of `flushMetrics`: skip metrics
whose aggregator holds no series, encode the rest. -/
def buildMetricSet (refID : String) : ActiveSeries → List PbMetric
  | [] => []
  | (m, aggr) :: rest =>
    if aggr.length < 1 then buildMetricSet refID rest
    else mapMetricProto refID m aggr :: buildMetricSet refID rest

/-- The `aggr.Clean()` calls of the same loop: every flushed (non-empty)
aggregator is emptied in place; the metric's entry itself stays. -/
def cleanFlushed : ActiveSeries → ActiveSeries
  | [] => []
  | (m, aggr) :: rest =>
    (if aggr.length < 1 then (m, aggr) else (m, Clean aggr)) :: cleanFlushed rest

/-- State of the `Output` that `flushMetrics` touches: the reference ID,
the externally buffered sample containers, the aggregation map, and a log
of the metric sets handed to `client.Push` (the push itself is I/O whose
error is only logged, leaving this state unchanged). -/
structure OutputState where
  referenceID : String
  buffer : List (List Sample)
  activeSeries : ActiveSeries
  pushedSets : List (List PbMetric)
  deriving DecidableEq

/-- Go `(*Output).flushMetrics`: return immediately on an empty reference
ID; otherwise drain the buffer into `activeSeries`; if nothing was
buffered stop; otherwise encode every non-empty metric, clean the flushed
aggregators and push the batch. -/
def flushMetrics (o : OutputState) : OutputState :=
  if o.referenceID = "" then o
  else
    let collected := collectSamples o.activeSeries o.buffer
    if collected.2 = false then
      { o with buffer := [], activeSeries := collected.1 }
    else
      { o with
        buffer := []
        activeSeries := cleanFlushed collected.1
        pushedSets := o.pushedSets ++ [buildMetricSet o.referenceID collected.1] }

/-! ## Push client (`metrics_client.go`) -/

/-- Go `MetricsClient` (the configuration-relevant fields). -/
structure MetricsClient where
  host : String
  token : String
  deriving DecidableEq, Repr

/-- Go `NewMetricsClient`: reject an empty host or token, otherwise
return the initialized client. -/
def NewMetricsClient (host token : String) : Except String MetricsClient :=
  if host = "" then .error "host is required"
  else if token = "" then .error "token is required"
  else .ok ⟨host, token⟩

/-- `const b100KiB = 100 * 1024`: the pre-compression payload cap. -/
def b100KiB : ℕ := 100 * 1024

/-- Modelled from the snappy library (external dependency, not part of
this repository): `snappy.MaxEncodedLen` returns
`32 + n + n/6`, or `-1` when the source length (or that bound)
exceeds `0xffffffff`. -/
def snappyMaxEncodedLen (srcLen : ℕ) : ℤ :=
  if srcLen > 0xffffffff then -1
  else if 32 + srcLen + srcLen / 6 > 0xffffffff then -1
  else ((32 + srcLen + srcLen / 6 : ℕ) : ℤ)

/-- Observable outcome of one `Push` call, keyed by the length of the
protobuf-serialized (pre-compression) batch.  `httpAttempted` means
control reached Snappy compression and the HTTP POST
(`mc.httpClient.Do`); the error constructors are returns that happen
strictly before any network activity. -/
inductive PushOutcome
  | errEmptyReferenceID
  | errTooLarge
  | errSnappyLen
  | httpAttempted
  deriving DecidableEq, Repr

/-- Go `newRequestBody`, abstracted over the already-serialized protobuf
bytes (`proto.Marshal` is external; its output length is the parameter):
fail when the size exceeds the 100 KiB cap or overflows snappy's bound,
otherwise compress and continue. -/
def newRequestBodyOutcome (serializedLen : ℕ) : Except PushOutcome Unit :=
  if serializedLen > b100KiB then .error .errTooLarge
  else if snappyMaxEncodedLen serializedLen < 0 then .error .errSnappyLen
  else .ok ()

/-- Go `(*MetricsClient).Push` control flow on the modelled inputs:
reject an empty reference ID before anything else; then the
`newRequestBody` checks; then the HTTP POST is attempted. -/
def pushOutcome (referenceID : String) (serializedLen : ℕ) : PushOutcome :=
  if referenceID = "" then .errEmptyReferenceID
  else
    match newRequestBodyOutcome serializedLen with
    | .error e => e
    | .ok () => .httpAttempted

/-- The specification's bucket-index mapping, written from the spec's own
words: "let u = ceil(value) ... If u < 256, index = u ... If u ≥ 256,
using precision constant k = 7: let n = floor(log2(u >> k));
index = (n << k) + (u >> n)."  Used only to compare against
`resolveBucketIndex`, the embedding of the source. -/
def specBucketIndex (u : ℕ) : ℕ :=
  if u < 256 then u
  else (Nat.log2 (u >>> 7) <<< 7) + (u >>> Nat.log2 (u >>> 7))

/-! ### Arithmetic reformulation of the bucket index -/

theorem bucketIndexOfUpscaled_eq (u : ℕ) :
    bucketIndexOfUpscaled u =
      if 256 ≤ u then
        Nat.log 2 (u / 128) * 128 + u / 2 ^ Nat.log 2 (u / 128)
      else u := by
  unfold bucketIndexOfUpscaled
  simp only [Nat.shiftRight_eq_div_pow, Nat.shiftLeft_eq, Nat.log2_eq_log_two]

theorem log_div128_pos {u : ℕ} (hu : 256 ≤ u) : 1 ≤ Nat.log 2 (u / 128) := by
  have h2 : 2 ^ 1 ≤ u / 128 := by omega
  exact (Nat.pow_le_iff_le_log (by norm_num) (by omega)).1 h2

theorem div_pow_log_lower {u : ℕ} (hu : 256 ≤ u) :
    128 ≤ u / 2 ^ Nat.log 2 (u / 128) := by
  have h1 : 2 ^ Nat.log 2 (u / 128) ≤ u / 128 :=
    Nat.pow_log_le_self 2 (by omega)
  have h2 : 2 ^ Nat.log 2 (u / 128) * 128 ≤ u :=
    (Nat.le_div_iff_mul_le (by norm_num)).1 h1
  rw [Nat.le_div_iff_mul_le (Nat.pos_pow_of_pos _ (by norm_num))]
  omega

theorem div_pow_log_upper {u : ℕ} (hu : 256 ≤ u) :
    u / 2 ^ Nat.log 2 (u / 128) < 256 := by
  have h1 : u / 128 < 2 ^ (Nat.log 2 (u / 128) + 1) :=
    Nat.lt_pow_succ_log_self (by norm_num) _
  have h2 : u < 2 ^ (Nat.log 2 (u / 128) + 1) * 128 :=
    (Nat.div_lt_iff_lt_mul (by norm_num)).1 h1
  rw [Nat.div_lt_iff_lt_mul (Nat.pos_pow_of_pos _ (by norm_num))]
  calc u < 2 ^ (Nat.log 2 (u / 128) + 1) * 128 := h2
    _ = 256 * 2 ^ Nat.log 2 (u / 128) := by rw [pow_succ]; ring

theorem bucketIndexOfUpscaled_mono {u1 u2 : ℕ} (h : u1 ≤ u2) :
    bucketIndexOfUpscaled u1 ≤ bucketIndexOfUpscaled u2 := by
  rw [bucketIndexOfUpscaled_eq, bucketIndexOfUpscaled_eq]
  by_cases h1 : 256 ≤ u1
  · have h2 : 256 ≤ u2 := le_trans h1 h
    rw [if_pos h1, if_pos h2]
    have hn : Nat.log 2 (u1 / 128) ≤ Nat.log 2 (u2 / 128) :=
      Nat.log_mono_right (Nat.div_le_div_right h)
    rcases Nat.lt_or_ge (Nat.log 2 (u1 / 128)) (Nat.log 2 (u2 / 128)) with hlt | hge
    · have ha : u1 / 2 ^ Nat.log 2 (u1 / 128) < 256 := div_pow_log_upper h1
      have hb : 128 ≤ u2 / 2 ^ Nat.log 2 (u2 / 128) := div_pow_log_lower h2
      have hm : (Nat.log 2 (u1 / 128) + 1) * 128 ≤ Nat.log 2 (u2 / 128) * 128 :=
        Nat.mul_le_mul_right _ hlt
      omega
    · have he : Nat.log 2 (u1 / 128) = Nat.log 2 (u2 / 128) := le_antisymm hn hge
      rw [he]
      have hd : u1 / 2 ^ Nat.log 2 (u2 / 128) ≤ u2 / 2 ^ Nat.log 2 (u2 / 128) :=
        Nat.div_le_div_right h
      omega
  · rw [if_neg h1]
    by_cases h2 : 256 ≤ u2
    · rw [if_pos h2]
      have ha : 1 ≤ Nat.log 2 (u2 / 128) := log_div128_pos h2
      have hb : 128 ≤ u2 / 2 ^ Nat.log 2 (u2 / 128) := div_pow_log_lower h2
      have hm : 1 * 128 ≤ Nat.log 2 (u2 / 128) * 128 := Nat.mul_le_mul_right _ ha
      omega
    · rw [if_neg h2]; exact h

/-- C2: the bucket index function is monotonically non-decreasing over
the trackable range: for all values `v1 ≤ v2` in `[0, 2^30]`,
`resolveBucketIndex v1 ≤ resolveBucketIndex v2`. -/
theorem resolveBucketIndex_mono (v1 v2 : ℚ) (h0 : 0 ≤ v1) (h12 : v1 ≤ v2)
    (hhi : v2 ≤ 1073741824) :
    resolveBucketIndex v1 ≤ resolveBucketIndex v2 := by
  unfold resolveBucketIndex
  rw [if_neg (not_lt.2 h0), if_neg (not_lt.2 (le_trans h0 h12))]
  exact bucketIndexOfUpscaled_mono (Int.toNat_le_toNat (Int.ceil_mono h12))

/-- C2 witness: the monotonicity theorem applied at `3 ≤ 300`. -/
theorem resolveBucketIndex_mono_witness :
    (0 : ℚ) ≤ 3 ∧ (3 : ℚ) ≤ 300 ∧ (300 : ℚ) ≤ 1073741824 ∧
      resolveBucketIndex 3 ≤ resolveBucketIndex 300 :=
  ⟨by norm_num, by norm_num, by norm_num,
    resolveBucketIndex_mono 3 300 (by norm_num) (by norm_num) (by norm_num)⟩

/-- C5: on the trackable domain the source's `resolveBucketIndex` computes
exactly the spec's formula on the ceil-upscaled integer `u = ⌈v⌉`:
`u` itself for `u < 256`, and `(n << 7) + (u >> n)` with
`n = floor(log2(u >> 7))` for `u ≥ 256`. -/
theorem resolveBucketIndex_eq_specBucketIndex (v : ℚ) (h0 : 0 ≤ v)
    (hhi : v ≤ 1073741824) :
    resolveBucketIndex v = specBucketIndex (Int.ceil v).toNat := by
  unfold resolveBucketIndex specBucketIndex bucketIndexOfUpscaled
  rw [if_neg (not_lt.2 h0)]
  by_cases h : 256 ≤ (Int.ceil v).toNat
  · rw [if_pos h, if_neg (by omega)]
  · rw [if_neg h, if_pos (by omega)]

/-- C5 witness: the agreement theorem applied at `v = 300` (the spec's
non-linear-region example). -/
theorem resolveBucketIndex_eq_specBucketIndex_witness :
    (0 : ℚ) ≤ 300 ∧ (300 : ℚ) ≤ 1073741824 ∧
      resolveBucketIndex 300 = specBucketIndex (Int.ceil (300 : ℚ)).toNat :=
  ⟨by norm_num, by norm_num,
    resolveBucketIndex_eq_specBucketIndex 300 (by norm_num) (by norm_num)⟩

/-- C9: adding a value strictly above `highestTrackable = 2^30` increments
the overflow counter, leaves the bucket array untouched (no growth, no
bucket increment), and the sample is still counted (absorbed, never
rejected): the update is total. -/
theorem addToBucket_above_highest (h : Histogram) (v : ℚ)
    (hv : highestTrackable < v) (hc : h.ExtraHighBucket + 1 < U32) :
    (addToBucket h v).ExtraHighBucket = h.ExtraHighBucket + 1 ∧
      (addToBucket h v).Buckets = h.Buckets ∧
      (addToBucket h v).Count = (h.Count + 1) % U32 := by
  by_cases h0 : h.Count = 0
  · simp [addToBucket, h0, hv, Nat.mod_eq_of_lt hc]
  · by_cases hmax : v > h.Max <;> by_cases hmin : v < h.Min <;>
      simp [addToBucket, h0, hmax, hmin, hv, Nat.mod_eq_of_lt hc]

/-- C9 witness: `2^31` on the empty histogram goes to the overflow
counter and creates no bucket. -/
theorem addToBucket_above_highest_witness :
    highestTrackable < (2147483648 : ℚ) ∧
      emptyHistogram.ExtraHighBucket + 1 < U32 ∧
      (addToBucket emptyHistogram 2147483648).ExtraHighBucket =
        emptyHistogram.ExtraHighBucket + 1 ∧
      (addToBucket emptyHistogram 2147483648).Buckets = emptyHistogram.Buckets ∧
      (addToBucket emptyHistogram 2147483648).Count =
        (emptyHistogram.Count + 1) % U32 := by
  have hv : highestTrackable < (2147483648 : ℚ) := by norm_num [highestTrackable]
  have hc : emptyHistogram.ExtraHighBucket + 1 < U32 := by norm_num [emptyHistogram, U32]
  obtain ⟨h1, h2, h3⟩ := addToBucket_above_highest emptyHistogram 2147483648 hv hc
  exact ⟨hv, hc, h1, h2, h3⟩

/-! ### Aggregator lemmas -/

theorem cleanFlushed_length (a : ActiveSeries) :
    (cleanFlushed a).length = a.length := by
  induction a with
  | nil => rfl
  | cons e rest ih =>
    obtain ⟨k, v⟩ := e
    simp only [cleanFlushed, List.length_cons, ih]

theorem lookupMetric_cleanFlushed {a : ActiveSeries} {m : Metric}
    {aggr : AggregatedSamples} (h : lookupMetric a m = some aggr)
    (hne : 1 ≤ aggr.length) :
    lookupMetric (cleanFlushed a) m = some [] := by
  induction a with
  | nil => simp [lookupMetric] at h
  | cons e rest ih =>
    obtain ⟨k, v⟩ := e
    by_cases hk : k = m
    · rw [lookupMetric, if_pos hk] at h
      have hv : v = aggr := Option.some.inj h
      subst hv
      have hlen : ¬ v.length < 1 := by omega
      simp only [cleanFlushed, if_neg hlen]
      rw [lookupMetric, if_pos hk]
      rfl
    · rw [lookupMetric, if_neg hk] at h
      simp only [cleanFlushed]
      by_cases hl : v.length < 1
      · rw [if_pos hl, lookupMetric, if_neg hk]
        exact ih h
      · rw [if_neg hl, lookupMetric, if_neg hk]
        exact ih h

theorem addSampleToActive_length {a : ActiveSeries} {s : Sample}
    {aggr : AggregatedSamples} (h : lookupMetric a s.ts.metric = some aggr) :
    (addSampleToActive a s).length = a.length := by
  induction a with
  | nil => simp [lookupMetric] at h
  | cons e rest ih =>
    obtain ⟨k, v⟩ := e
    by_cases hk : k = s.ts.metric
    · simp [addSampleToActive, hk]
    · rw [lookupMetric, if_neg hk] at h
      simp [addSampleToActive, hk, ih h]

theorem lookupMetric_addSampleToActive {a : ActiveSeries} {s : Sample}
    {aggr : AggregatedSamples} (h : lookupMetric a s.ts.metric = some aggr) :
    lookupMetric (addSampleToActive a s) s.ts.metric = some (AddSample aggr s) := by
  induction a with
  | nil => simp [lookupMetric] at h
  | cons e rest ih =>
    obtain ⟨k, v⟩ := e
    by_cases hk : k = s.ts.metric
    · rw [lookupMetric, if_pos hk] at h
      have hv : v = aggr := Option.some.inj h
      subst hv
      simp [addSampleToActive, lookupMetric, hk]
    · rw [lookupMetric, if_neg hk] at h
      simp only [addSampleToActive, if_neg hk]
      rw [lookupMetric, if_neg hk]
      exact ih h

/-- C7: clearing a flushed metric's aggregator (`Clean` inside the flush
loop) empties every per-series sample list but keeps the metric's entry
in `activeSeries`, so a subsequent sample for the same metric is added
through the existing entry (same number of registered metrics) and lands
as the sole sample of its series. -/
theorem clean_keeps_metric_entry (active : ActiveSeries) (m : Metric)
    (aggr : AggregatedSamples) (s : Sample)
    (hm : lookupMetric active m = some aggr) (hne : 1 ≤ aggr.length)
    (hs : s.ts.metric = m) :
    lookupMetric (cleanFlushed active) m = some [] ∧
      (addSampleToActive (cleanFlushed active) s).length = active.length ∧
      lookupMetric (addSampleToActive (cleanFlushed active) s) m
        = some [(s.ts, [s])] := by
  subst hs
  have h1 : lookupMetric (cleanFlushed active) s.ts.metric = some [] :=
    lookupMetric_cleanFlushed hm hne
  refine ⟨h1, ?_, ?_⟩
  · rw [addSampleToActive_length h1, cleanFlushed_length]
  · exact lookupMetric_addSampleToActive h1

/-- A counter metric, series and samples used as concrete witnesses. -/
def cMetric : Metric := ⟨"metric1", .Counter⟩

def cSeries : TimeSeries := ⟨cMetric, [("key1", "val1")]⟩

def cSample : Sample := ⟨cSeries, 1, 42⟩

def cSample2 : Sample := ⟨cSeries, 2, 7⟩

/-- C7 witness: the clean-then-add theorem applied to a one-metric
aggregation state. -/
theorem clean_keeps_metric_entry_witness :
    lookupMetric [(cMetric, [(cSeries, [cSample])])] cMetric
        = some [(cSeries, [cSample])] ∧
      1 ≤ ([(cSeries, [cSample])] : AggregatedSamples).length ∧
      cSample2.ts.metric = cMetric ∧
      lookupMetric (cleanFlushed [(cMetric, [(cSeries, [cSample])])]) cMetric
        = some [] ∧
      (addSampleToActive (cleanFlushed [(cMetric, [(cSeries, [cSample])])]) cSample2).length
        = ([(cMetric, [(cSeries, [cSample])])] : ActiveSeries).length ∧
      lookupMetric
          (addSampleToActive (cleanFlushed [(cMetric, [(cSeries, [cSample])])]) cSample2)
          cMetric
        = some [(cSample2.ts, [cSample2])] := by
  obtain ⟨h1, h2, h3⟩ :=
    clean_keeps_metric_entry [(cMetric, [(cSeries, [cSample])])] cMetric
      [(cSeries, [cSample])] cSample2 rfl (by norm_num) rfl
  exact ⟨rfl, by norm_num, rfl, h1, h2, h3⟩

/-- C8 counterexample: a drained buffer holding one container with zero
samples makes `collectSamples` return `true` although no sample was
observed and nothing was added to the aggregation state — refuting
"returns true if and only if at least one sample was observed". -/
theorem collectSamples_true_without_samples :
    (collectSamples [] [[]]).2 = true ∧ (collectSamples [] [[]]).1 = [] ∧
      (([[]] : List (List Sample)).map List.length).sum = 0 :=
  ⟨rfl, rfl, rfl⟩

/-- C8 (amended): `collectSamples` returns `true` iff the drained buffer
contained at least one sample container — containers may themselves be
empty, so `true` does not guarantee a sample was observed. -/
theorem collectSamples_true_iff_nonempty_buffer (active : ActiveSeries)
    (buffered : List (List Sample)) :
    (collectSamples active buffered).2 = true ↔ 1 ≤ buffered.length := by
  rcases buffered with _ | ⟨c, rest⟩ <;> simp [collectSamples]

/-- C3 (bug evidence): a Trend time series carrying a sample is skipped
entirely by `MapAsProto` (the loop `continue`s on Trend and the switch's
Trend arm is an unimplemented TODO): the encoder emits zero wire values
for it instead of the one histogram value the claim requires, and the
histogram encoder is never invoked from the batch encoder. -/
theorem trend_series_emit_nothing :
    MapAsProto [(⟨⟨"metric_trend", .Trend⟩, [("key1", "val1")]⟩,
        [⟨⟨⟨"metric_trend", .Trend⟩, [("key1", "val1")]⟩, 1, 300⟩])]
      "test-run-id" = [] := rfl

/-- C10: with an empty reference ID a flush tick is a complete no-op:
the buffer is not drained, the aggregation state is untouched and no
push is recorded. -/
theorem flushMetrics_noop_on_empty_refID (o : OutputState)
    (h : o.referenceID = "") : flushMetrics o = o := by
  simp [flushMetrics, h]

/-- C10 witness: the no-op theorem applied to a state with a pending
buffered sample and a registered metric. -/
theorem flushMetrics_noop_on_empty_refID_witness :
    (OutputState.mk "" [[cSample]] [(cMetric, [])] []).referenceID = "" ∧
      flushMetrics (OutputState.mk "" [[cSample]] [(cMetric, [])] [])
        = OutputState.mk "" [[cSample]] [(cMetric, [])] [] :=
  ⟨rfl, flushMetrics_noop_on_empty_refID (OutputState.mk "" [[cSample]] [(cMetric, [])] []) rfl⟩

/-! ### Push client theorems -/

theorem snappyMaxEncodedLen_nonneg {n : ℕ} (hn : n ≤ b100KiB) :
    0 ≤ snappyMaxEncodedLen n := by
  unfold snappyMaxEncodedLen
  have hd : n / 6 ≤ n := Nat.div_le_self n 6
  have h1 : ¬ n > 0xffffffff := by unfold b100KiB at hn; omega
  have h2 : ¬ 32 + n + n / 6 > 0xffffffff := by unfold b100KiB at hn; omega
  rw [if_neg h1, if_neg h2]
  exact Int.natCast_nonneg _

/-- C4: a batch whose protobuf-serialized (pre-compression) size exceeds
100 KiB makes `Push` fail in `newRequestBody`, before any HTTP activity;
with a non-empty reference ID and a size at or under the cap, control
proceeds through Snappy compression to the HTTP POST. -/
theorem push_size_cap (refID : String) (n : ℕ) (h : refID ≠ "") :
    (b100KiB < n → pushOutcome refID n = .errTooLarge) ∧
      (n ≤ b100KiB → pushOutcome refID n = .httpAttempted) := by
  constructor
  · intro hn
    unfold pushOutcome newRequestBodyOutcome
    rw [if_neg h, if_pos hn]
  · intro hn
    unfold pushOutcome newRequestBodyOutcome
    rw [if_neg h, if_neg (by omega : ¬ n > b100KiB),
      if_neg (not_lt.2 (snappyMaxEncodedLen_nonneg hn))]

/-- C4 witness: the size-cap theorem applied one byte over the cap and
well under the cap. -/
theorem push_size_cap_witness :
    ("ref-id" : String) ≠ "" ∧
      pushOutcome "ref-id" (b100KiB + 1) = .errTooLarge ∧
      pushOutcome "ref-id" 1024 = .httpAttempted := by
  have h : ("ref-id" : String) ≠ "" := by decide
  exact ⟨h,
    (push_size_cap "ref-id" (b100KiB + 1) h).1 (Nat.lt_succ_self _),
    (push_size_cap "ref-id" 1024 h).2 (by norm_num [b100KiB])⟩

/-- C6: `NewMetricsClient` returns an error (and no client) whenever the
host or the token is empty, and `Push` rejects an empty reference ID with
an error whatever the serialized size — i.e. before serialization plays
any role. -/
theorem client_config_required (host token refID : String) (n : ℕ) :
    ((host = "" ∨ token = "") →
        ∃ e, NewMetricsClient host token = .error e) ∧
      (refID = "" → pushOutcome refID n = .errEmptyReferenceID) := by
  constructor
  · rintro (h | h)
    · exact ⟨"host is required", by simp [NewMetricsClient, h]⟩
    · by_cases hh : host = ""
      · exact ⟨"host is required", by simp [NewMetricsClient, hh]⟩
      · exact ⟨"token is required", by simp [NewMetricsClient, hh, h]⟩
  · intro h
    simp [pushOutcome, h]

/-- C6 witness: the configuration theorem applied to an empty host and an
empty reference ID. -/
theorem client_config_required_witness :
    (("" : String) = "" ∨ ("t" : String) = "") ∧
      (∃ e, NewMetricsClient "" "t" = .error e) ∧
      pushOutcome "" 0 = .errEmptyReferenceID :=
  ⟨Or.inl rfl, (client_config_required "" "t" "" 0).1 (Or.inl rfl),
    (client_config_required "" "t" "" 0).2 rfl⟩

/-- C1 (bug evidence): folding the single value `0` yields `Count = 1`
yet the two overflow counters and the trimmed bucket array together sum
to `0`: `trimzeros` drops the non-zero counter sitting at index 0, so the
claimed invariant `Count = ExtraLow + ExtraHigh + sum Buckets` fails on
the constructed histogram. -/
theorem newHistogram_zero_breaks_count_invariant :
    (newHistogram [0]).Count = 1 ∧
      (newHistogram [0]).ExtraLowBucket + (newHistogram [0]).ExtraHighBucket
        + (newHistogram [0]).Buckets.sum = 0 := by decide

end K6
